import Mathlib

/-!
Shallow embedding of `src/game_guide_bot.py`, a Discord chatbot demo with an
LLM back end and a startup web-page ingestion pipeline.

Modelling conventions:
* Python strings are `List Char`; string literals appear as `"...".toList`.
* The external collaborators (Discord SDK, the HTTP client plus body decode,
  `html2text.html2text`, `ogbujipt.text_helper.text_splitter`,
  `ogbujipt.config.openai_emulation`, the completion endpoint) are
  parameters of the embedded functions: the repository only calls them.
* Fallible external calls (HTTP fetch / body decode) return `Except`.
* The event handlers are embedded as pure functions producing the ordered
  list of outward effects they perform (placeholder send, completion call,
  placeholder edit), plus explicit state passing for the vector collection.
* Python `async def` semantics: calling an async function WITHOUT awaiting
  it merely builds a coroutine object; the body does not run.  This is
  modelled by a `Coroutine` wrapper whose body is a suspended function.
-/

namespace GameGuideBot

/-- Constant `EMBED_CHUNK_SIZE = 200` (line 59 of the source). -/
def EMBED_CHUNK_SIZE : Nat := 200

/-- Constant `EMBED_CHUNK_OVERLAP = 20` (line 60 of the source). -/
def EMBED_CHUNK_OVERLAP : Nat := 20

/-- The hardcoded document URL `WEBSITE` (line 66 of the source). -/
def WEBSITE : String :=
  "https://ffxiv.consolegameswiki.com/wiki/Anabaseios:_The_Twelfth_Circle_(Savage)"

/-- Index of the first occurrence of `sep` as a contiguous sublist of `s`
(`none` when `sep` never occurs).  This is the search performed by Python's
`str.partition` and by the `in` operator on strings. -/
def firstOcc (sep : List Char) : List Char → Option Nat
  | [] => if sep.isPrefixOf ([] : List Char) then some 0 else none
  | c :: rest =>
      if sep.isPrefixOf (c :: rest) then some 0
      else (firstOcc sep rest).map (· + 1)

/-- Python `s.partition(sep)` for a non-empty separator: split at the first
occurrence of `sep`, returning `(before, sep, after)`; when `sep` does not
occur, return `(s, empty, empty)`. -/
def pyPartitionL (s sep : List Char) : List Char × List Char × List Char :=
  match firstOcc sep s with
  | some i => (s.take i, sep, s.drop (i + sep.length))
  | none => (s, [], [])

/-- Python `sub in s` on strings: membership as a contiguous substring. -/
def containsSub (s sub : List Char) : Bool :=
  (firstOcc sub s).isSome

/-- The decimal digit string `str(client.user.id)` (line 112 of the source). -/
def idChars (botId : Nat) : List Char :=
  (Nat.repr botId).toList

/-- The mention token built at line 124 of the source:
the f-string `<@` followed by the bot id and `>`. -/
def mentionChars (botId : Nat) : List Char :=
  '<' :: '@' :: (Nat.repr botId).toList ++ ['>']

/-- Lines 124-126 of the source: `clean_msg = message.content.partition(mention_str)`
then `clean_msg = clean_msg[0] + clean_msg[2]`. -/
def cleanMsg (content : List Char) (botId : Nat) : List Char :=
  let p := pyPartitionL content (mentionChars botId)
  p.1 ++ p.2.2

/-- An inbound Discord message event: the author's user id, the raw content,
and the set of user ids carried by the platform's mention markers
(`client.user.mentioned_in(message)` checks membership in the latter). -/
structure Message where
  author : Nat
  content : List Char
  mentions : List Nat
  deriving DecidableEq

/-- The guard at lines 110-113 of the source: the handler returns immediately
when the message is the bot's own, or the bot is not in the mention set, or
the bot id's digit string does not occur in the content. -/
def shouldIgnore (botId : Nat) (m : Message) : Bool :=
  decide (m.author = botId) || !(decide (botId ∈ m.mentions)) ||
    !(containsSub m.content (idChars botId))

/-- The LLM request parameters the program configures: `llm.params.llmtemp`
and `llm.params.max_tokens` (lines 183-184 of the source), passed as
`**llm.params` at line 85. -/
structure LlmParams where
  llmtemp : Option String
  max_tokens : Nat
  deriving DecidableEq

/-- One completion choice of the endpoint's JSON-like response payload. -/
structure Choice where
  text : List Char
  deriving DecidableEq

/-- The JSON-like completion response payload: a list of choices. -/
structure Response where
  choices : List Choice
  deriving DecidableEq

/-- `ogbujipt.oapi_choice1_text`: extract the text of the first completion
choice; `none` models the exception raised on a malformed payload with no
choices. -/
def oapi_choice1_text (r : Response) : Option (List Char) :=
  r.choices.head?.map Choice.text

/-- An asyncio task over the single-threaded cooperative event loop:
`steps` is the number of scheduler steps until completion and `value` the
task's result. -/
structure AsyncTask (α : Type) where
  steps : Nat
  value : α

/-- `asyncio.wait(tasks, return_when=asyncio.FIRST_COMPLETED)`: returns
`(done, pending)` where `done` holds the tasks completing no later than
every other task (those finished when the first completion fires) and
`pending` holds the rest. -/
def asyncio_wait_first_completed {α : Type} (tasks : List (AsyncTask α)) :
    List (AsyncTask α) × List (AsyncTask α) :=
  (tasks.filter (fun t => tasks.all (fun u => decide (t.steps ≤ u.steps))),
   tasks.filter (fun t => !(tasks.all (fun u => decide (t.steps ≤ u.steps)))))

/-- The scheduled completion callable
`schedule_callable(openai_api_surrogate, prompt, **llm.params)` (line 85):
an oracle mapping a prompt and the request parameters to the asyncio task
whose result is the endpoint's response payload. -/
abbrev Sched := List Char → LlmParams → AsyncTask Response

/-- An outward effect performed by the message handler, in order:
sending the placeholder message, issuing one completion request with its
parameters, editing the placeholder. -/
inductive Effect where
  | sendMsg (content : List Char)
  | completionCall (prompt : List Char) (params : LlmParams)
  | editMsg (content : List Char)
  deriving DecidableEq

/-- Recognizer for the placeholder-edit effect. -/
def Effect.isEdit : Effect → Bool
  | Effect.editMsg _ => true
  | _ => false

/-- Recognizer for the completion-request effect. -/
def Effect.isCompletionCall : Effect → Bool
  | Effect.completionCall _ _ => true
  | _ => false

/-- Recognizer for the message-send effect. -/
def Effect.isSend : Effect → Bool
  | Effect.sendMsg _ => true
  | _ => false

/-- Lines 76-102 of the source, `send_llm_msg(msg)`: build the prompt with
`context_build` (the abstract `ctx`), create one task for the scheduled
completion callable, `asyncio.wait` on the one-element task list with
`FIRST_COMPLETED`, take `next(iter(done)).result()` and extract the first
choice's text.  Returns the effect trace (the one completion request) and
the extracted text (`none` models a raised exception). -/
def send_llm_msg (ctx : List Char → List Char) (sched : Sched)
    (params : LlmParams) (msg : List Char) :
    List Effect × Option (List Char) :=
  let prompt := ctx msg
  let llm_task := sched prompt params
  let tasks := [llm_task]
  let done := (asyncio_wait_first_completed tasks).1
  ([Effect.completionCall prompt params],
   done.head?.bind (fun t => oapi_choice1_text t.value))

/-- Comparand for the refinement claim, following the spec's words (spec
section 4.6 and section 9): a plain blocking await of the completion
callable followed by first-choice text extraction, with no task set and no
wait-for-first-completed machinery. -/
def send_llm_msg_direct (ctx : List Char → List Char) (sched : Sched)
    (params : LlmParams) (msg : List Char) : Option (List Char) :=
  oapi_choice1_text (sched (ctx msg) params).value

/-- The throbber placeholder content sent at line 120 of the source. -/
def throbber : List Char :=
  "<a:oori_throbber:1119445227732742265>".toList

/-- Lines 105-130 of the source, the `on_message` handler, as its ordered
effect trace: nothing when the guard fires; otherwise the placeholder send,
then the completion request made inside `send_llm_msg` on the cleaned
content, then — only when a response text was extracted — one edit of the
placeholder with the text truncated to 2000 characters (`response[:2000]`).
When extraction raises (`none`), the exception propagates and no edit
happens. -/
def on_message (botId : Nat) (ctx : List Char → List Char) (sched : Sched)
    (params : LlmParams) (m : Message) : List Effect :=
  if shouldIgnore botId m then []
  else
    let clean_msg := cleanMsg m.content botId
    let r := send_llm_msg ctx sched params clean_msg
    Effect.sendMsg throbber ::
      (r.1 ++
        (match r.2 with
         | none => []
         | some text => [Effect.editMsg (text.take 2000)]))

/-- The in-memory vector collection: the stored records, each a chunk text
paired with its url metadata value. -/
structure Collection where
  records : List (List Char × List Char)
  deriving DecidableEq

/-- `collection.count()`: the number of stored records. -/
def Collection.count (c : Collection) : Nat :=
  c.records.length

/-- `collection.update(texts=chunks, metas=metas)` (line 151): embed and
upsert each text with its metadata, appending the new records. -/
def Collection.update (c : Collection) (texts : List (List Char))
    (metas : List (List Char)) : Collection :=
  ⟨c.records ++ texts.zip metas⟩

/-- The parameters of one call to `text_splitter` (records the keyword
arguments `chunk_size` and `chunk_overlap` passed at lines 144-145). -/
structure ChunkerCall where
  chunk_size : Nat
  chunk_overlap : Nat
  deriving DecidableEq

/-- Line 135 of the source: `if not url.startswith('http'): url = 'https://' + url`. -/
def normalizeUrl (url : List Char) : List Char :=
  if ("http".toList).isPrefixOf url then url else "https://".toList ++ url

/-- The HTTP fetch plus body decode (lines 137-139): an oracle from the url
to either the decoded HTML or a raised error. -/
abbrev Fetch := List Char → Except String (List Char)

/-- `html2text.html2text` (line 141): an oracle from HTML to plain text. -/
abbrev Html2Text := List Char → List Char

/-- `ogbujipt.text_helper.text_splitter` (lines 144-145): an oracle from
(text, chunk_size, chunk_overlap, separator) to the chunk list. -/
abbrev Splitter := List Char → Nat → Nat → Char → List (List Char)

/-- Lines 133-152 of the source, `read_site(url, collection)`: normalize the
url, fetch and decode (errors propagate), convert to text, split into
chunks with `chunk_size=EMBED_CHUNK_SIZE`, `chunk_overlap=EMBED_CHUNK_OVERLAP`
and separator a newline, build one url metadata entry per chunk
(`metas = [...url...]*len(chunks)`), and update the collection.  Returns the
resulting collection (or the propagated error, in which case the caller's
collection is untouched) together with the list of chunker calls made. -/
def read_site (h2t : Html2Text) (splitter : Splitter) (fetch : Fetch)
    (url : List Char) (collection : Collection) :
    Except String Collection × List ChunkerCall :=
  let url := normalizeUrl url
  match fetch url with
  | Except.error e => (Except.error e, [])
  | Except.ok html =>
      let text := h2t html
      let chunks := splitter text EMBED_CHUNK_SIZE EMBED_CHUNK_OVERLAP '\n'
      let metas := List.replicate chunks.length url
      (Except.ok (collection.update chunks metas),
       [⟨EMBED_CHUNK_SIZE, EMBED_CHUNK_OVERLAP⟩])

/-- A Python coroutine object: calling an `async def` function builds one;
its body runs only when the coroutine is awaited (or scheduled).  A
coroutine that is never awaited never runs its body. -/
structure Coroutine (α : Type) where
  body : Unit → α

/-- Lines 155-169 of the source, the `on_ready` handler: set up the
embedding model, create the empty `website_collection`, and — at line 166 —
call the async `read_site(url=WEBSITE, collection=collection)` WITHOUT
`await`: the coroutine object is created and immediately discarded, so its
body never executes.  The function then prints the (unchanged) collection's
search results and count.  Returns the collection as the handler leaves it. -/
def on_ready (h2t : Html2Text) (splitter : Splitter) (fetch : Fetch) :
    Collection :=
  let collection : Collection := ⟨[]⟩
  let _unawaited : Coroutine (Except String Collection × List ChunkerCall) :=
    ⟨fun _ => read_site h2t splitter fetch WEBSITE.toList collection⟩
  collection

/-- The abstract `ogbujipt.config.openai_emulation(host=..., port=...)`
constructor (line 182): an oracle from the two environment-sourced values
to an LLM client handle. -/
structure LlmClient where
  host : Option String
  port : Option String
  params : LlmParams

/-- Oracle type for `openai_emulation`. -/
abbrev Emulate := Option String → Option String → LlmClient

/-- Lines 176-184 of the source, the LLM-client part of `main()`: read
`LLM_HOST`, `LLM_PORT`, `LLM_TEMP` from the environment, build the client,
set `llm.params.llmtemp` from the environment and `llm.params.max_tokens`
to the literal 512. -/
def mainLlm (emulate : Emulate) (env : String → Option String) : LlmClient :=
  let llm := emulate (env "LLM_HOST") (env "LLM_PORT")
  let llm := { llm with params := { llm.params with llmtemp := env "LLM_TEMP" } }
  { llm with params := { llm.params with max_tokens := 512 } }

/-- Concrete fetch oracle used in witnesses: always succeeds with a small
HTML page. -/
def fetch0 : Fetch :=
  fun _ => Except.ok ("<html><body>Hello world</body></html>".toList)

/-- Concrete fetch oracle used in witnesses: always raises. -/
def fetchErr : Fetch :=
  fun _ => Except.error "connect failure"

/-- Concrete html-to-text oracle used in witnesses. -/
def h2t0 : Html2Text :=
  fun _ => "Hello world".toList

/-- Concrete chunker oracle used in witnesses: one chunk, the whole text. -/
def splitter0 : Splitter :=
  fun text _ _ _ => [text]

/-- Concrete scheduled-completion oracle used in witnesses: completes in
three steps with a one-choice payload reading `answer`. -/
def sched0 : Sched :=
  fun _ _ => ⟨3, ⟨[⟨"answer".toList⟩]⟩⟩

/-- Concrete request parameters used in witnesses. -/
def params0 : LlmParams :=
  ⟨none, 512⟩

/-- Concrete message used in witnesses: a user (id 1) mentioning bot 42. -/
def m42 : Message :=
  ⟨1, "<@42> what is X".toList, [42]⟩

/-- Concrete `openai_emulation` oracle used in witnesses. -/
def emu0 : Emulate :=
  fun h p => ⟨h, p, ⟨none, 0⟩⟩

/-- Concrete environment used in witnesses: nothing set. -/
def env0 : String → Option String :=
  fun _ => none

/-- When `firstOcc` reports index `i`, the separator indeed starts at `i`. -/
theorem firstOcc_some_found (sep : List Char) :
    ∀ (s : List Char) (i : Nat), firstOcc sep s = some i →
      sep.isPrefixOf (s.drop i) = true := by
  intro s
  induction s with
  | nil =>
      intro i h
      simp only [firstOcc] at h
      cases hp : sep.isPrefixOf ([] : List Char) with
      | true =>
          rw [hp, if_pos rfl] at h
          injection h with h
          subst h
          exact hp
      | false =>
          rw [hp, if_neg (by decide)] at h
          exact Option.noConfusion h
  | cons c rest ih =>
      intro i h
      simp only [firstOcc] at h
      cases hp : sep.isPrefixOf (c :: rest) with
      | true =>
          rw [hp, if_pos rfl] at h
          injection h with h
          subst h
          exact hp
      | false =>
          rw [hp, if_neg (by decide)] at h
          cases hrec : firstOcc sep rest with
          | none =>
              rw [hrec] at h
              exact Option.noConfusion h
          | some j =>
              rw [hrec] at h
              simp only [Option.map_some'] at h
              injection h with h
              subst h
              rw [List.drop_succ_cons]
              exact ih j hrec

/-- When `firstOcc` reports index `i`, the separator starts at no earlier
index: `i` is the FIRST occurrence. -/
theorem firstOcc_some_min (sep : List Char) :
    ∀ (s : List Char) (i : Nat), firstOcc sep s = some i →
      ∀ j, j < i → sep.isPrefixOf (s.drop j) = false := by
  intro s
  induction s with
  | nil =>
      intro i h j hj
      simp only [firstOcc] at h
      cases hp : sep.isPrefixOf ([] : List Char) with
      | true =>
          rw [hp, if_pos rfl] at h
          injection h with h
          subst h
          exact absurd hj (Nat.not_lt_zero j)
      | false =>
          rw [hp, if_neg (by decide)] at h
          exact Option.noConfusion h
  | cons c rest ih =>
      intro i h j hj
      simp only [firstOcc] at h
      cases hp : sep.isPrefixOf (c :: rest) with
      | true =>
          rw [hp, if_pos rfl] at h
          injection h with h
          subst h
          exact absurd hj (Nat.not_lt_zero j)
      | false =>
          rw [hp, if_neg (by decide)] at h
          cases hrec : firstOcc sep rest with
          | none =>
              rw [hrec] at h
              exact Option.noConfusion h
          | some k =>
              rw [hrec] at h
              simp only [Option.map_some'] at h
              injection h with h
              subst h
              cases j with
              | zero => exact hp
              | succ j' =>
                  rw [List.drop_succ_cons]
                  exact ih k hrec j' (by omega)

/-- When `firstOcc` reports no occurrence, the separator starts nowhere. -/
theorem firstOcc_none (sep : List Char) :
    ∀ (s : List Char), firstOcc sep s = none →
      ∀ j, sep.isPrefixOf (s.drop j) = false := by
  intro s
  induction s with
  | nil =>
      intro h j
      cases hp : sep.isPrefixOf ([] : List Char) with
      | true =>
          simp only [firstOcc] at h
          rw [hp, if_pos rfl] at h
          exact Option.noConfusion h
      | false =>
          rw [List.drop_nil]
          exact hp
  | cons c rest ih =>
      intro h j
      simp only [firstOcc] at h
      cases hp : sep.isPrefixOf (c :: rest) with
      | true =>
          rw [hp, if_pos rfl] at h
          exact Option.noConfusion h
      | false =>
          rw [hp, if_neg (by decide)] at h
          cases hrec : firstOcc sep rest with
          | some k =>
              rw [hrec] at h
              simp only [Option.map_some'] at h
              exact Option.noConfusion h
          | none =>
              cases j with
              | zero => exact hp
              | succ j' =>
                  rw [List.drop_succ_cons]
                  exact ih hrec j'

/-- With a single task in flight, `asyncio.wait FIRST_COMPLETED` finishes
exactly that task and leaves nothing pending. -/
theorem wait_singleton {α : Type} (t : AsyncTask α) :
    asyncio_wait_first_completed [t] = ([t], []) := by
  simp [asyncio_wait_first_completed]

/-- The effect trace of `send_llm_msg` is the single completion request on
the built prompt. -/
theorem send_llm_msg_fst (ctx : List Char → List Char) (sched : Sched)
    (params : LlmParams) (msg : List Char) :
    (send_llm_msg ctx sched params msg).1 =
      [Effect.completionCall (ctx msg) params] := rfl

/-- The result of `send_llm_msg` is the first-choice text of the response
the scheduled callable produces for the built prompt. -/
theorem send_llm_msg_snd (ctx : List Char → List Char) (sched : Sched)
    (params : LlmParams) (msg : List Char) :
    (send_llm_msg ctx sched params msg).2 =
      oapi_choice1_text (sched (ctx msg) params).value := by
  simp [send_llm_msg, asyncio_wait_first_completed]

/-- Every completion-request effect emitted by `on_message` carries exactly
the parameter record the handler was configured with. -/
theorem completionCall_mem_params (botId : Nat) (ctx : List Char → List Char)
    (sched : Sched) (params : LlmParams) (m : Message) (pr : List Char)
    (p : LlmParams)
    (hmem : Effect.completionCall pr p ∈ on_message botId ctx sched params m) :
    p = params := by
  cases hig : shouldIgnore botId m with
  | true => simp [on_message, hig] at hmem
  | false =>
      cases h2 : (send_llm_msg ctx sched params (cleanMsg m.content botId)).2 with
      | none =>
          simp [on_message, hig, send_llm_msg_fst, h2] at hmem
          exact hmem.2
      | some text =>
          simp [on_message, hig, send_llm_msg_fst, h2] at hmem
          exact hmem.2

/-- C1 (code bug): the claim says `on_ready` ingests the hardcoded WEBSITE so
that afterwards the collection's count equals the number of chunks produced.
The source instead calls the async `read_site` WITHOUT `await` (line 166),
so the coroutine body never runs: for every choice of the external oracles
the collection `on_ready` leaves behind has count 0, while actually awaiting
`read_site` on the same oracles (here: a fetch returning a small page whose
text the chunker splits into one chunk) yields a collection of count 1. -/
theorem on_ready_never_ingests :
    (∀ (h2t : Html2Text) (splitter : Splitter) (fetch : Fetch),
      (on_ready h2t splitter fetch).count = 0) ∧
    (∃ col, (read_site h2t0 splitter0 fetch0 WEBSITE.toList ⟨[]⟩).1 =
        Except.ok col ∧ col.count = 1) := by
  refine ⟨fun _ _ _ => rfl, ⟨⟨[("Hello world".toList, WEBSITE.toList)]⟩, ?_, rfl⟩⟩
  rfl

/-- C2 (counterexample): for content `<@123> hello` and bot id 123 the
cleaned message is NOT `hello` — `partition` keeps the space that follows
the mention token and the source never strips whitespace. -/
theorem cleanMsg_not_hello :
    cleanMsg ("<@123> hello".toList) 123 ≠ "hello".toList := by decide

/-- C2 (amended): for content `<@123> hello` and bot id 123 the cleaned
message passed to the prompt builder equals `\x20hello` — the mention token
is removed and the space after it is preserved. -/
theorem cleanMsg_space_hello :
    cleanMsg ("<@123> hello".toList) 123 = " hello".toList := by decide

/-- C9: mention stripping removes exactly the first occurrence of the
mention token: either there is a first index `i` where the token starts
(and no earlier index), and the cleaned message is the content before `i`
concatenated with the content after the token, or the token never starts
anywhere and the content is unchanged. -/
theorem cleanMsg_removes_first_occurrence (content : List Char) (botId : Nat) :
    (∃ i, (mentionChars botId).isPrefixOf (content.drop i) = true ∧
        (∀ j, j < i → (mentionChars botId).isPrefixOf (content.drop j) = false) ∧
        cleanMsg content botId =
          content.take i ++ content.drop (i + (mentionChars botId).length)) ∨
    ((∀ j, (mentionChars botId).isPrefixOf (content.drop j) = false) ∧
      cleanMsg content botId = content) := by
  cases h : firstOcc (mentionChars botId) content with
  | some i =>
      left
      refine ⟨i, firstOcc_some_found _ _ _ h,
        fun j hj => firstOcc_some_min _ _ _ h j hj, ?_⟩
      simp [cleanMsg, pyPartitionL, h]
  | none =>
      right
      refine ⟨fun j => firstOcc_none _ _ h j, ?_⟩
      simp [cleanMsg, pyPartitionL, h]

/-- C3: for every handled mention event whose completion response carries a
first-choice text, the placeholder is edited exactly once, with content the
response text truncated to 2000 characters: at most 2000 characters, and
the full text whenever it is no longer than 2000. -/
theorem handled_message_edits_once (botId : Nat) (ctx : List Char → List Char)
    (sched : Sched) (params : LlmParams) (m : Message) (txt : List Char)
    (hhandled : shouldIgnore botId m = false)
    (hresp : oapi_choice1_text
        (sched (ctx (cleanMsg m.content botId)) params).value = some txt) :
    (on_message botId ctx sched params m).filter Effect.isEdit =
      [Effect.editMsg (txt.take 2000)] ∧
    (txt.take 2000).length ≤ 2000 ∧
    (txt.length ≤ 2000 → txt.take 2000 = txt) := by
  have h2 : (send_llm_msg ctx sched params (cleanMsg m.content botId)).2 =
      some txt := by
    rw [send_llm_msg_snd]
    exact hresp
  refine ⟨?_, List.length_take_le 2000 txt, fun h => List.take_of_length_le h⟩
  simp [on_message, hhandled, h2, send_llm_msg_fst, Effect.isEdit]

/-- C3 witness: a concrete handled mention of bot 42 whose completion
response text is `answer` yields exactly one placeholder edit carrying it. -/
theorem handled_message_edits_once_case :
    shouldIgnore 42 m42 = false ∧
    (on_message 42 id sched0 params0 m42).filter Effect.isEdit =
      [Effect.editMsg (("answer".toList).take 2000)] :=
  ⟨by decide,
   (handled_message_edits_once 42 id sched0 params0 m42 ("answer".toList)
      (by decide) rfl).1⟩

/-- C4: a message authored by the bot itself, or that does not mention the
bot, produces no effects at all: zero completion requests and zero
placeholder sends. -/
theorem ignored_message_no_effects (botId : Nat) (ctx : List Char → List Char)
    (sched : Sched) (params : LlmParams) (m : Message)
    (h : m.author = botId ∨ botId ∉ m.mentions) :
    (on_message botId ctx sched params m).filter Effect.isCompletionCall = [] ∧
    (on_message botId ctx sched params m).filter Effect.isSend = [] := by
  have hig : shouldIgnore botId m = true := by
    rcases h with h | h
    · simp [shouldIgnore, h]
    · simp [shouldIgnore, h]
  simp [on_message, hig]

/-- C4 witness: a concrete self-authored message (author id 7 equals the bot
id 7) produces zero completion requests and zero sends. -/
theorem ignored_message_no_effects_case :
    (on_message 7 id sched0 params0 ⟨7, "hi".toList, []⟩).filter
        Effect.isCompletionCall = [] ∧
    (on_message 7 id sched0 params0 ⟨7, "hi".toList, []⟩).filter
        Effect.isSend = [] :=
  ignored_message_no_effects 7 id sched0 params0 ⟨7, "hi".toList, []⟩
    (Or.inl rfl)

/-- C5: `read_site` normalizes the url by prefixing a scheme when missing
(the spec's example `example.test/page` becomes
`https://example.test/page`), and every record a successful call adds to the
collection carries the normalized url as its metadata. -/
theorem read_site_tags_normalized_url (h2t : Html2Text) (splitter : Splitter)
    (fetch : Fetch) (url : List Char) (c col : Collection)
    (hok : (read_site h2t splitter fetch url c).1 = Except.ok col) :
    normalizeUrl ("example.test/page".toList) =
      "https://example.test/page".toList ∧
    ∀ r ∈ col.records, r ∈ c.records ∨ r.2 = normalizeUrl url := by
  refine ⟨by decide, ?_⟩
  intro r hr
  obtain ⟨rt, rm⟩ := r
  simp only [read_site] at hok
  cases hf : fetch (normalizeUrl url) with
  | error e => rw [hf] at hok; exact Except.noConfusion hok
  | ok html =>
      rw [hf] at hok
      injection hok with hok
      subst hok
      simp only [Collection.update, List.mem_append] at hr
      rcases hr with hr | hr
      · exact Or.inl hr
      · right
        obtain ⟨-, hmem⟩ := List.of_mem_zip hr
        exact List.eq_of_mem_replicate hmem

/-- C5 witness: ingesting `example.test/page` on concrete oracles succeeds,
the normalization example holds, and the one added record carries the
normalized url as metadata. -/
theorem read_site_tags_normalized_url_case :
    normalizeUrl ("example.test/page".toList) =
      "https://example.test/page".toList ∧
    ("Hello world".toList,
      normalizeUrl ("example.test/page".toList)).2 =
      normalizeUrl ("example.test/page".toList) := by
  have h := read_site_tags_normalized_url h2t0 splitter0 fetch0
    ("example.test/page".toList) ⟨[]⟩
    ⟨[("Hello world".toList, normalizeUrl ("example.test/page".toList))]⟩ rfl
  exact ⟨h.1, by
    rcases h.2 ("Hello world".toList,
        normalizeUrl ("example.test/page".toList)) (by simp) with hc | hc
    · exact absurd hc (by simp)
    · exact hc⟩

/-- C6 (refinement): scheduling the completion call as a single concurrent
task and awaiting first completion over the one-element task set returns,
for every prompt builder, scheduled callable, parameter set and message,
exactly the text a plain await of the completion callable would return. -/
theorem send_llm_msg_refines_direct (ctx : List Char → List Char)
    (sched : Sched) (params : LlmParams) (msg : List Char) :
    (send_llm_msg ctx sched params msg).2 =
      send_llm_msg_direct ctx sched params msg := by
  rw [send_llm_msg_snd]
  rfl

/-- C7: the chunker configuration satisfies overlap < size with the
configured values 200 and 20, and every chunker call `read_site` makes
passes exactly these values, so every call satisfies the invariant. -/
theorem chunker_calls_invariant (h2t : Html2Text) (splitter : Splitter)
    (fetch : Fetch) (url : List Char) (c : Collection) :
    EMBED_CHUNK_SIZE = 200 ∧ EMBED_CHUNK_OVERLAP = 20 ∧
    EMBED_CHUNK_OVERLAP < EMBED_CHUNK_SIZE ∧
    ∀ call ∈ (read_site h2t splitter fetch url c).2,
      call.chunk_overlap < call.chunk_size := by
  refine ⟨rfl, rfl, by decide, ?_⟩
  intro call hcall
  simp only [read_site] at hcall
  cases hf : fetch (normalizeUrl url) with
  | error e => rw [hf] at hcall; simp at hcall
  | ok html =>
      rw [hf] at hcall
      simp only [List.mem_singleton] at hcall
      subst hcall
      decide

/-- C7 witness: a concrete successful ingestion makes exactly one chunker
call, with overlap 20 strictly below size 200. -/
theorem chunker_calls_invariant_case :
    (⟨EMBED_CHUNK_SIZE, EMBED_CHUNK_OVERLAP⟩ : ChunkerCall).chunk_overlap <
      (⟨EMBED_CHUNK_SIZE, EMBED_CHUNK_OVERLAP⟩ : ChunkerCall).chunk_size :=
  (chunker_calls_invariant h2t0 splitter0 fetch0 ("x".toList) ⟨[]⟩).2.2.2
    ⟨EMBED_CHUNK_SIZE, EMBED_CHUNK_OVERLAP⟩ (by decide)

/-- C8: when the HTTP fetch or body decode raises inside `read_site`, the
error propagates out of the call, no chunker call or upsert happens
(the call list is empty and no collection is returned), so the caller's
collection keeps exactly its prior state. -/
theorem read_site_error_propagates (h2t : Html2Text) (splitter : Splitter)
    (fetch : Fetch) (url : List Char) (c : Collection) (e : String)
    (herr : fetch (normalizeUrl url) = Except.error e) :
    (read_site h2t splitter fetch url c).1 = Except.error e ∧
    (read_site h2t splitter fetch url c).2 = [] ∧
    ∀ col, (read_site h2t splitter fetch url c).1 = Except.ok col → col = c := by
  have h1 : read_site h2t splitter fetch url c = (Except.error e, []) := by
    simp only [read_site, herr]
  rw [h1]
  exact ⟨rfl, rfl, fun col h => Except.noConfusion h⟩

/-- C8 witness: a concrete fetch raising `connect failure` makes `read_site`
propagate that very error with no chunker call. -/
theorem read_site_error_propagates_case :
    (read_site h2t0 splitter0 fetchErr ("example.test/page".toList) ⟨[]⟩).1 =
      Except.error "connect failure" :=
  (read_site_error_propagates h2t0 splitter0 fetchErr
    ("example.test/page".toList) ⟨[]⟩ "connect failure" rfl).1

/-- C10: the client configuration fixes max_tokens at the literal 512 no
matter what the environment holds; the configuration depends on the
environment only through LLM_HOST, LLM_PORT and LLM_TEMP; and every
completion request the handler emits carries max_tokens 512. -/
theorem max_tokens_always_512 (emulate : Emulate)
    (env : String → Option String) (botId : Nat) (ctx : List Char → List Char)
    (sched : Sched) (m : Message) :
    (mainLlm emulate env).params.max_tokens = 512 ∧
    (∀ env' : String → Option String, env "LLM_HOST" = env' "LLM_HOST" →
      env "LLM_PORT" = env' "LLM_PORT" → env "LLM_TEMP" = env' "LLM_TEMP" →
      mainLlm emulate env = mainLlm emulate env') ∧
    ∀ pr p, Effect.completionCall pr p ∈
        on_message botId ctx sched (mainLlm emulate env).params m →
      p.max_tokens = 512 := by
  refine ⟨rfl, ?_, ?_⟩
  · intro env' h1 h2 h3
    simp only [mainLlm]
    rw [h1, h2, h3]
  · intro pr p hmem
    have hp := completionCall_mem_params botId ctx sched
      (mainLlm emulate env).params m pr p hmem
    rw [hp]
    rfl

/-- C10 witness: on a concrete emulation oracle, environment, and handled
message, the completion request the handler emits carries max_tokens 512. -/
theorem max_tokens_always_512_case :
    (⟨none, 512⟩ : LlmParams).max_tokens = 512 :=
  (max_tokens_always_512 emu0 env0 42 id sched0 m42).2.2
    (cleanMsg m42.content 42) ⟨none, 512⟩ (by decide)

end GameGuideBot
